import Mathlib

set_option maxHeartbeats 1000000
set_option linter.dupNamespace false

/-!
Shallow embedding of `neontestdb.go` (package `neontestdb`), a test-harness
client for the Neon control-plane branch API.

Modelling conventions:
* Go `log.Fatalf` terminates the process; we model every client operation as
  returning an `Outcome`, where `Outcome.fatal` is a `log.Fatalf` termination
  and `Outcome.panic` is a Go runtime panic (nil-pointer dereference, index
  out of range).  `Outcome.ok` is a normal return.
* HTTP responses are modelled as a status code plus an optional decoded body:
  `body = none` models a body that does not decode into the target type
  (Go `json.Decoder.Decode` error).
* The remote service is a parameter: a `Server σ` answers the four requests
  the client issues, threading its own state `σ` through the mutating calls.
  A concrete model of the Neon registry (`neonServer`, built from the spec's
  data-model invariant and external-interface section) is given further down.
* Go `time.Duration` values are nanosecond counts, embedded as `Nat`
  (`time.Millisecond = 1000000`).
* Side effects that the claims talk about (callback invocation, DELETE and
  POST requests, sleeps) are recorded in an `Event` trace.
-/

/-- Result of running a client operation: normal return, `log.Fatalf`
process termination, or a Go runtime panic. -/
inductive Outcome (α : Type) where
  | ok : α → Outcome α
  | fatal : String → Outcome α
  | panic : String → Outcome α
deriving Repr

/-- Embeds Go struct `CreatedBy`. -/
structure CreatedBy where
  Name : String
  Image : String
deriving Repr, DecidableEq

/-- Embeds Go struct `Branch` (field for field; JSON tags dropped). -/
structure Branch where
  ID : String
  ProjectID : String
  ParentID : String
  ParentLSN : String
  ParentTimestamp : String
  Name : String
  CurrentState : String
  PendingState : String
  StateChangedAt : String
  CreationSource : String
  Primary : Bool
  Default : Bool
  Protected : Bool
  CPUUsedSec : Int
  ComputeTimeSeconds : Int
  ActiveTimeSeconds : Int
  WrittenDataBytes : Int
  DataTransferBytes : Int
  CreatedAt : String
  UpdatedAt : String
  CreatedBy : CreatedBy
deriving Repr, DecidableEq

/-- Embeds Go struct `Endpoint`.  The Go field `Settings` has type
`map[string]interface{}`; arbitrary JSON objects are embedded as association
lists of rendered key/value strings (no claim inspects them). -/
structure Endpoint where
  Host : String
  ID : String
  ProjectID : String
  BranchID : String
  AutoscalingLimitMinCu : Float
  AutoscalingLimitMaxCu : Float
  RegionID : String
  «Type» : String
  CurrentState : String
  PendingState : String
  Settings : List (String × String)
  PoolerEnabled : Bool
  PoolerMode : String
  Disabled : Bool
  PasswordlessAccess : Bool
  CreationSource : String
  CreatedAt : String
  UpdatedAt : String
  ProxyHost : String
  SuspendTimeoutSeconds : Int
  Provisioner : String
deriving Repr

/-- Embeds Go struct `Operation`. -/
structure Operation where
  ID : String
  ProjectID : String
  BranchID : String
  EndpointID : String
  Action : String
  Status : String
  FailuresCount : Int
  CreatedAt : String
  UpdatedAt : String
  TotalDurationMs : Int
deriving Repr, DecidableEq

/-- Embeds Go struct `Role`. -/
structure Role where
  BranchID : String
  Name : String
  Protected : Bool
  CreatedAt : String
  UpdatedAt : String
deriving Repr, DecidableEq

/-- Embeds Go struct `Database`. -/
structure Database where
  ID : Int
  BranchID : String
  Name : String
  OwnerName : String
  CreatedAt : String
  UpdatedAt : String
deriving Repr, DecidableEq

/-- Embeds Go struct `ConnectionParameters`. -/
structure ConnectionParameters where
  Database : String
  Password : String
  Role : String
  Host : String
  PoolerHost : String
deriving Repr, DecidableEq

/-- Embeds Go struct `ConnectionURI`. -/
structure ConnectionURI where
  ConnectionURI : String
  ConnectionParameters : ConnectionParameters
deriving Repr, DecidableEq

/-- Embeds Go struct `BranchCreated`. -/
structure BranchCreated where
  Branch : Branch
  Endpoints : List Endpoint
  Operations : List Operation
  Roles : List Role
  Databases : List Database
  ConnectionURIs : List ConnectionURI
deriving Repr

/-- Embeds Go struct `Branches`.  Go field `Annotations` is
`map[string]interface{}`, embedded like `Endpoint.Settings`. -/
structure Branches where
  Branches : List Branch
  Annotations : List (String × String)
deriving Repr

/-- Embeds Go struct `CreateEndpoint`. -/
structure CreateEndpoint where
  «Type» : String
deriving Repr, DecidableEq

/-- Embeds Go struct `CreateBranch` (the request's `branch` object). -/
structure CreateBranch where
  Name : String
  ParentID : String
deriving Repr, DecidableEq

/-- Embeds Go struct `CreateBranchRequest`. -/
structure CreateBranchRequest where
  Endpoints : List CreateEndpoint
  Branch : CreateBranch
deriving Repr, DecidableEq

/-- Embeds Go struct `Client`.  The Go field `Client http.Client` (the HTTP
transport handle) carries no observable client state and is not embedded;
the transport is instead the `Server` parameter of each operation. -/
structure Client where
  Key : String
  ProjectID : String
  Branch : String
  NoCleanup : Bool
deriving Repr, DecidableEq

/-- An HTTP response as the client observes it: the status code, and the
body as decoded into the expected type (`none` when the body does not decode,
modelling a `json.Decoder.Decode` failure). -/
structure HttpResponse (α : Type) where
  statusCode : Nat
  body : Option α
deriving Repr

/-- Observable side effects of a client operation, in program order. -/
inductive Event where
  | createCall : CreateBranchRequest → Event
  | deleteCall : String → Event
  | sleep : Nat → Event
  | callback : ConnectionURI → Event
deriving Repr, DecidableEq

/-- The remote service, as the client sees it: answers to the four request
shapes the client issues (list branches, get one branch, create, delete),
threading a service-side state `σ` through the mutating requests.  GET
requests are modelled as not changing service state. -/
structure Server (σ : Type) where
  listResp : σ → HttpResponse Branches
  getBranchResp : σ → String → HttpResponse Branch
  createResp : σ → CreateBranchRequest → σ × HttpResponse BranchCreated
  deleteResp : σ → String → σ × HttpResponse Unit

/-- Embeds Go `validateStatus`: fatal unless the response status is one of
the accepted ones (`slices.Contains`). -/
def validateStatus (resp : HttpResponse α) (acceptedStatus : List Nat) : Outcome Unit :=
  if acceptedStatus.contains resp.statusCode then Outcome.ok ()
  else Outcome.fatal "unexpected status code"

/-- Embeds Go `parseResponse[T]`: decode the body into the target type,
fatal on decode failure. -/
def parseResponse (resp : HttpResponse α) : Outcome α :=
  match resp.body with
  | some result => Outcome.ok result
  | none => Outcome.fatal "error decoding"

/-- Embeds Go `GetBranches`: GET the branches list; `nil` (here
`none`) on 404, otherwise require status 200 and decode. -/
def GetBranches (srv : Server σ) (s : σ) (n : Client) : Outcome (Option Branches) :=
  let resp := srv.listResp s
  if resp.statusCode = 404 then Outcome.ok none
  else
    match validateStatus resp [200] with
    | Outcome.ok _ =>
      match parseResponse resp with
      | Outcome.ok result => Outcome.ok (some result)
      | Outcome.fatal m => Outcome.fatal m
      | Outcome.panic m => Outcome.panic m
    | Outcome.fatal m => Outcome.fatal m
    | Outcome.panic m => Outcome.panic m

/-- Embeds Go `GetBranch`: GET one branch by name/identifier path
segment; `nil` on 404, otherwise require 200 and decode. -/
def GetBranch (srv : Server σ) (s : σ) (n : Client) (name : String) : Outcome (Option Branch) :=
  let resp := srv.getBranchResp s name
  if resp.statusCode = 404 then Outcome.ok none
  else
    match validateStatus resp [200] with
    | Outcome.ok _ =>
      match parseResponse resp with
      | Outcome.ok result => Outcome.ok (some result)
      | Outcome.fatal m => Outcome.fatal m
      | Outcome.panic m => Outcome.panic m
    | Outcome.fatal m => Outcome.fatal m
    | Outcome.panic m => Outcome.panic m

/-- Embeds Go `GetBranchByName`: `for _, branch := range
n.GetBranches().Branches { if branch.Name == name { return &branch } }`.
When `GetBranches` returns Go `nil` (the 404 absence sentinel), the field
selection `.Branches` dereferences a nil pointer: a runtime panic. -/
def GetBranchByName (srv : Server σ) (s : σ) (n : Client) (name : String) :
    Outcome (Option Branch) :=
  match GetBranches srv s n with
  | Outcome.ok (some branches) =>
    Outcome.ok (branches.Branches.find? (fun branch => branch.Name = name))
  | Outcome.ok none =>
    Outcome.panic "runtime error: invalid memory address or nil pointer dereference"
  | Outcome.fatal m => Outcome.fatal m
  | Outcome.panic m => Outcome.panic m

/-- Embeds Go `DeleteBranch`: DELETE by name/identifier path segment,
require status 200.  The issued DELETE is recorded as an event. -/
def DeleteBranch (srv : Server σ) (s : σ) (n : Client) (name : String) :
    σ × List Event × Outcome Unit :=
  let (s', resp) := srv.deleteResp s name
  (s', [Event.deleteCall name], validateStatus resp [200])

/-- Embeds Go `NewCreateBranchRequest`: wrap the `branch` object with
a single read-write compute endpoint. -/
def NewCreateBranchRequest (branch : CreateBranch) : CreateBranchRequest :=
  { Endpoints := [{ «Type» := "read_write" }], Branch := branch }

/-- Embeds the retry loop of Go `Client.CreateBranch`:
`for retry := 10 * time.Millisecond; retry <= 100*time.Millisecond; retry += 10`.
`retry` is a `time.Duration` (nanoseconds), so the bounds are 10000000 and
100000000 and the untyped increment `10` adds ten nanoseconds.  Each
iteration POSTs the creation request; on status 423 (locked) it sleeps
`retry` and continues, otherwise it requires 200 or 201 and decodes the
body.  Exiting the loop is `log.Fatalf` with the elapsed time. -/
def CreateBranchLoop (srv : Server σ) (create : CreateBranch) (s : σ) (retry : Nat) :
    σ × List Event × Outcome BranchCreated :=
  if retry ≤ 100000000 then
    let (s', resp) := srv.createResp s (NewCreateBranchRequest create)
    if resp.statusCode = 423 then
      let (s'', ev, out) := CreateBranchLoop srv create s' (retry + 10)
      (s'', Event.createCall (NewCreateBranchRequest create) :: Event.sleep retry :: ev, out)
    else
      (s', [Event.createCall (NewCreateBranchRequest create)],
        match validateStatus resp [200, 201] with
        | Outcome.ok _ =>
          match parseResponse resp with
          | Outcome.ok result => Outcome.ok result
          | Outcome.fatal m => Outcome.fatal m
          | Outcome.panic m => Outcome.panic m
        | Outcome.fatal m => Outcome.fatal m
        | Outcome.panic m => Outcome.panic m)
  else
    (s, [], Outcome.fatal "failed to create branch after elapsed time")
termination_by 100000001 - retry
decreasing_by omega

/-- Embeds Go `Client.CreateBranch`: resolve the parent branch by
`GetBranchByName(n.Branch)`, fatal when absent, then run the retry loop
starting at `retry = 10 * time.Millisecond`. -/
def Client.CreateBranch (srv : Server σ) (s : σ) (n : Client) (name : String) :
    σ × List Event × Outcome BranchCreated :=
  match GetBranchByName srv s n n.Branch with
  | Outcome.ok none =>
    (s, [], Outcome.fatal "error creating branch, parent branch not found")
  | Outcome.ok (some parent) =>
    CreateBranchLoop srv { Name := name, ParentID := parent.ID } s 10000000
  | Outcome.fatal m => (s, [], Outcome.fatal m)
  | Outcome.panic m => (s, [], Outcome.panic m)

/-- Embeds Go `ForcedCreateBranch`: if `GetBranch(name)` is non-nil,
`DeleteBranch(name)`; then `CreateBranch(name)`. -/
def ForcedCreateBranch (srv : Server σ) (s : σ) (n : Client) (name : String) :
    σ × List Event × Outcome BranchCreated :=
  match GetBranch srv s n name with
  | Outcome.ok (some _) =>
    let (s1, ev1, r1) := DeleteBranch srv s n name
    match r1 with
    | Outcome.ok _ =>
      let (s2, ev2, r2) := Client.CreateBranch srv s1 n name
      (s2, ev1 ++ ev2, r2)
    | Outcome.fatal m => (s1, ev1, Outcome.fatal m)
    | Outcome.panic m => (s1, ev1, Outcome.panic m)
  | Outcome.ok none => Client.CreateBranch srv s n name
  | Outcome.fatal m => (s, [], Outcome.fatal m)
  | Outcome.panic m => (s, [], Outcome.panic m)

/-- Embeds Go `UsingBranch`: force-create the branch, invoke the
callback with `created.ConnectionURIs[0]` (a Go index expression: it panics
when the slice is empty), then unless `NoCleanup` delete the branch by
`created.Branch.ID`.  The callback invocation is recorded as an event. -/
def UsingBranch (srv : Server σ) (s : σ) (n : Client) (name : String) :
    σ × List Event × Outcome Unit :=
  let (s1, ev1, r1) := ForcedCreateBranch srv s n name
  match r1 with
  | Outcome.ok created =>
    match created.ConnectionURIs with
    | [] => (s1, ev1, Outcome.panic "runtime error: index out of range")
    | uri :: _ =>
      if !n.NoCleanup then
        let (s2, ev2, r2) := DeleteBranch srv s1 n created.Branch.ID
        (s2, ev1 ++ [Event.callback uri] ++ ev2, r2)
      else
        (s1, ev1 ++ [Event.callback uri], Outcome.ok ())
  | Outcome.fatal m => (s1, ev1, Outcome.fatal m)
  | Outcome.panic m => (s1, ev1, Outcome.panic m)

/-- Embeds Go `strings.ReplaceAll(s, old, new)` for the one-character
pattern and replacement used in `UsingTestBranch`: every occurrence of the
single character `old` is replaced by `new`. -/
def ReplaceAllChar (s : String) (old new : Char) : String :=
  String.mk (s.data.map (fun c => if c = old then new else c))

/-- Embeds the branch-name derivation of Go `UsingTestBranch`:
`strings.ReplaceAll(fmt.Sprintf("%s.%s", hostname, t.Name()), "/", ".")`. -/
def deriveTestBranchName (hostname testName : String) : String :=
  ReplaceAllChar (hostname ++ "." ++ testName) '/' '.'

/-- Embeds Go `UsingTestBranch`: derive the branch name from the
hostname and the test name, then delegate to `UsingBranch`. -/
def UsingTestBranch (srv : Server σ) (s : σ) (n : Client) (hostname testName : String) :
    σ × List Event × Outcome Unit :=
  UsingBranch srv s n (deriveTestBranchName hostname testName)

/-- State of the modelled remote branch registry: the branches of the one
configured project, plus a counter used to mint fresh branch identifiers.
Modelled from the spec (data model: "a branch name is unique within a
project at any instant"; external interfaces section), since the remote
service itself is not part of this repository. -/
structure RemoteState where
  branches : List Branch
  nextId : Nat
deriving Repr

/-- Looks up a branch by the path segment the client sent.  The spec's
registry notes that the remote service resolves the path segment whether it
is the opaque identifier or the display name ("callers must know the remote
service resolves branch names directly in its URL path"), and the client
indeed deletes both by name (`ForcedCreateBranch`) and by identifier
(`UsingBranch`). -/
def RemoteState.find (s : RemoteState) (key : String) : Option Branch :=
  s.branches.find? (fun b => b.ID = key || b.Name = key)

/-- Builds the branch record the modelled service stores for a creation
request: a fresh identifier, the requested name and parent identifier. -/
def mkBranch (id : String) (create : CreateBranch) : Branch :=
  { ID := id
    ProjectID := "p1"
    ParentID := create.ParentID
    ParentLSN := ""
    ParentTimestamp := ""
    Name := create.Name
    CurrentState := "ready"
    PendingState := ""
    StateChangedAt := ""
    CreationSource := ""
    Primary := false
    Default := false
    Protected := false
    CPUUsedSec := 0
    ComputeTimeSeconds := 0
    ActiveTimeSeconds := 0
    WrittenDataBytes := 0
    DataTransferBytes := 0
    CreatedAt := ""
    UpdatedAt := ""
    CreatedBy := { Name := "", Image := "" } }

/-- Builds the creation-result bundle the modelled service returns: the new
branch together with one connection URI for it. -/
def mkBranchCreated (b : Branch) : BranchCreated :=
  { Branch := b
    Endpoints := []
    Operations := []
    Roles := []
    Databases := []
    ConnectionURIs :=
      [{ ConnectionURI := "postgres://" ++ b.ID
         ConnectionParameters :=
           { Database := "neondb", Password := "", Role := "", Host := b.ID, PoolerHost := "" } }] }

/-- The identifier the modelled service mints for the `k`-th created
branch. -/
def freshId (k : Nat) : String :=
  "br-" ++ Nat.repr k

/-- Concrete model of the remote branch registry, from the spec's data
model and external-interface sections: listing always answers 200 with the
current branches; a single-branch GET answers 404 when the path segment
matches nothing; creation answers 409 (conflict) when a branch of the
requested name already exists — names are unique within a project — and
201 with the creation bundle otherwise; deletion answers 404 when nothing
matches and 200 after removing the matched branch. -/
def neonServer : Server RemoteState :=
  { listResp := fun s => { statusCode := 200, body := some { Branches := s.branches, Annotations := [] } }
    getBranchResp := fun s key =>
      match s.find key with
      | some b => { statusCode := 200, body := some b }
      | none => { statusCode := 404, body := none }
    createResp := fun s req =>
      if s.branches.any (fun b => b.Name = req.Branch.Name) then
        (s, { statusCode := 409, body := none })
      else
        let b := mkBranch (freshId s.nextId) req.Branch
        ({ branches := s.branches ++ [b], nextId := s.nextId + 1 },
          { statusCode := 201, body := some (mkBranchCreated b) })
    deleteResp := fun s key =>
      match s.find key with
      | some b =>
        ({ s with branches := s.branches.filter (fun b' => !(b'.ID = b.ID)) },
          { statusCode := 200, body := some () })
      | none => (s, { statusCode := 404, body := none }) }

/-- Embeds the `require` closure of Go `LoadClient`: read an environment
variable, fatal when it is empty. -/
def require (env : String → String) (key : String) : Outcome String :=
  if env key = "" then
    Outcome.fatal ("missing required environment variable: " ++ key)
  else
    Outcome.ok (env key)

/-- Embeds Go `LoadClient`: build a client from the two required
environment variables, snapshotting the package-level `defaultBranch`
(passed here explicitly, since package-level state is a parameter of the
embedding) into the `Branch` field; `NoCleanup` is Go's zero value
`false`. -/
def LoadClient (env : String → String) (defaultBranch : String) : Outcome Client :=
  match require env "NEON_API_KEY" with
  | Outcome.ok key =>
    match require env "NEON_PROJECT_ID" with
    | Outcome.ok projectId =>
      Outcome.ok { Key := key, ProjectID := projectId, Branch := defaultBranch, NoCleanup := false }
    | Outcome.fatal m => Outcome.fatal m
    | Outcome.panic m => Outcome.panic m
  | Outcome.fatal m => Outcome.fatal m
  | Outcome.panic m => Outcome.panic m

/-- Process-wide picture for the configuration claims: the package-level
`defaultBranch` variable together with every client value constructed so
far (Go clients are plain values with value receivers — no operation can
write to a constructed client, so the list records them verbatim). -/
structure World where
  defaultBranch : String
  clients : List Client

/-- Embeds Go `SetDefaultBranch`: overwrite the package-level variable. -/
def SetDefaultBranch (w : World) (branch : String) : World :=
  { w with defaultBranch := branch }

/-- Runs Go `LoadClient` in a `World`: the constructed client snapshots the
current `defaultBranch` and is appended to the record of constructed
clients; a fatal load leaves the world unchanged. -/
def loadClientW (env : String → String) (w : World) : World × Outcome Client :=
  match LoadClient env w.defaultBranch with
  | Outcome.ok c => ({ w with clients := w.clients ++ [c] }, Outcome.ok c)
  | Outcome.fatal m => (w, Outcome.fatal m)
  | Outcome.panic m => (w, Outcome.panic m)

/-- The package-level actions that touch process-wide configuration. -/
inductive WorldOp where
  | setDefaultBranch : String → WorldOp
  | loadClient : (String → String) → WorldOp

/-- Applies one package-level action to the world. -/
def applyOp (w : World) : WorldOp → World
  | WorldOp.setDefaultBranch b => SetDefaultBranch w b
  | WorldOp.loadClient env => (loadClientW env w).1

/-- Applies a sequence of package-level actions to the world. -/
def applyOps (w : World) (ops : List WorldOp) : World :=
  ops.foldl applyOp w

/-- The POST creation requests recorded in a trace, in order. -/
def createCallsOf (evs : List Event) : List CreateBranchRequest :=
  evs.filterMap (fun e =>
    match e with
    | Event.createCall req => some req
    | _ => none)

/-- The DELETE path segments recorded in a trace, in order. -/
def deleteCallsOf (evs : List Event) : List String :=
  evs.filterMap (fun e =>
    match e with
    | Event.deleteCall key => some key
    | _ => none)

/-- The sleep durations (nanoseconds) recorded in a trace, in order. -/
def sleepsOf (evs : List Event) : List Nat :=
  evs.filterMap (fun e =>
    match e with
    | Event.sleep d => some d
    | _ => none)

/-- The callback invocations recorded in a trace, in order, each with the
connection URI it was handed. -/
def callbacksOf (evs : List Event) : List ConnectionURI :=
  evs.filterMap (fun e =>
    match e with
    | Event.callback uri => some uri
    | _ => none)

/-- Number of iterations the retry loop of `Client.CreateBranch` performs
from a given `retry` value when every response is locked: the loop runs
while `retry ≤ 100000000`, adding 10 (nanoseconds) each time. -/
def iterCount (retry : Nat) : Nat :=
  if retry ≤ 100000000 then (100000000 - retry) / 10 + 1 else 0

/-- The parent branch present in the sample registry states below. -/
def mainBranch : Branch :=
  mkBranch "br-0" { Name := "main", ParentID := "" }

/-- Sample registry state: just the default parent branch. -/
def initState : RemoteState :=
  { branches := [mainBranch], nextId := 1 }

/-- Sample client configuration used by concrete witnesses. -/
def sampleClient : Client :=
  { Key := "k", ProjectID := "p1", Branch := "main", NoCleanup := false }

/-- Sample client with the cleanup-suppression flag set. -/
def sampleClientNoCleanup : Client :=
  { Key := "k", ProjectID := "p1", Branch := "main", NoCleanup := true }

/-- Remote service that always reports 423 (locked) to creation requests,
while resolving the parent branch normally: exercises the retry loop. -/
def lockedServer : Server Unit :=
  { listResp := fun _ =>
      { statusCode := 200, body := some { Branches := [mainBranch], Annotations := [] } }
    getBranchResp := fun _ _ => { statusCode := 404, body := none }
    createResp := fun s _ => (s, { statusCode := 423, body := none })
    deleteResp := fun s _ => (s, { statusCode := 200, body := some () }) }

/-- Remote service that answers 404 (not found) to the branch-listing
request, producing the `GetBranches` absence sentinel. -/
def listNotFoundServer : Server Unit :=
  { listResp := fun _ => { statusCode := 404, body := none }
    getBranchResp := fun _ _ => { statusCode := 404, body := none }
    createResp := fun s _ => (s, { statusCode := 404, body := none })
    deleteResp := fun s _ => (s, { statusCode := 404, body := none }) }

/-- Remote service for a project with no branches at all: the listing
answers 200 with an empty list, so the parent branch resolves to nothing. -/
def emptyListServer : Server Unit :=
  { listResp := fun _ =>
      { statusCode := 200, body := some { Branches := [], Annotations := [] } }
    getBranchResp := fun _ _ => { statusCode := 404, body := none }
    createResp := fun s _ => (s, { statusCode := 423, body := none })
    deleteResp := fun s _ => (s, { statusCode := 200, body := some () }) }

/-- A creation result whose `ConnectionURIs` slice is empty. -/
def noURICreated : BranchCreated :=
  { Branch := mkBranch "br-1" { Name := "x", ParentID := "br-0" }
    Endpoints := []
    Operations := []
    Roles := []
    Databases := []
    ConnectionURIs := [] }

/-- Remote service whose creation result carries no connection URIs. -/
def noURIServer : Server Unit :=
  { listResp := fun _ =>
      { statusCode := 200, body := some { Branches := [mainBranch], Annotations := [] } }
    getBranchResp := fun _ _ => { statusCode := 404, body := none }
    createResp := fun s _ => (s, { statusCode := 201, body := some noURICreated })
    deleteResp := fun s _ => (s, { statusCode := 200, body := some () }) }

/-- The branch the concrete registry model mints first from `initState`. -/
def sampleCreatedBranch : Branch := mkBranch "br-1" { Name := "x", ParentID := "br-0" }

/-- The creation bundle the concrete registry model returns for it. -/
def sampleCreated : BranchCreated := mkBranchCreated sampleCreatedBranch

/-- Registry state after creating branch "x" from `initState`. -/
def sampleStateAfterCreate : RemoteState :=
  { branches := [mainBranch, sampleCreatedBranch], nextId := 2 }

/-- The connection URI of `sampleCreated`. -/
def sampleURI : ConnectionURI :=
  { ConnectionURI := "postgres://br-1"
    ConnectionParameters :=
      { Database := "neondb", Password := "", Role := "", Host := "br-1", PoolerHost := "" } }

/-- Sample environment carrying both required variables. -/
def sampleEnv : String → String := fun key =>
  if key = "NEON_API_KEY" then "k"
  else if key = "NEON_PROJECT_ID" then "p1"
  else ""

/-- Sample world for the configuration claims. -/
def sampleWorld : World :=
  { defaultBranch := "main", clients := [] }

/-- C6: `UsingTestBranch` derives the branch name as hostname, dot, test
name with every slash replaced by a dot: the derivation is deterministic,
the derived name contains no slash, and for host "h1" test "TestFoo" the
name is "h1.TestFoo" while subtest "TestFoo/case1" yields
"h1.TestFoo.case1". -/
theorem usingTestBranch_name_derivation :
    (∀ h1 t1 h2 t2 : String, h1 = h2 → t1 = t2 →
      deriveTestBranchName h1 t1 = deriveTestBranchName h2 t2) ∧
    (∀ h t : String, '/' ∉ (deriveTestBranchName h t).data) ∧
    deriveTestBranchName "h1" "TestFoo" = "h1.TestFoo" ∧
    deriveTestBranchName "h1" "TestFoo/case1" = "h1.TestFoo.case1" := by
  refine ⟨fun h1 t1 h2 t2 hh ht => by rw [hh, ht], fun h t hmem => ?_, by decide, by decide⟩
  simp only [deriveTestBranchName, ReplaceAllChar] at hmem
  obtain ⟨c, hcmem, hc⟩ := List.mem_map.mp hmem
  by_cases hsl : c = '/'
  · rw [if_pos hsl] at hc
    exact absurd hc (by decide)
  · rw [if_neg hsl] at hc
    exact hsl hc

/-- Witness for C6 at host "h1", test "TestFoo" and subtest
"TestFoo/case1". -/
theorem usingTestBranch_name_derivation_witness :
    deriveTestBranchName "h1" "TestFoo" = deriveTestBranchName "h1" "TestFoo" ∧
    '/' ∉ (deriveTestBranchName "h1" "TestFoo/case1").data :=
  ⟨usingTestBranch_name_derivation.1 "h1" "TestFoo" "h1" "TestFoo" rfl rfl,
   usingTestBranch_name_derivation.2.1 "h1" "TestFoo/case1"⟩

/-- C2 counterexample: when the branches listing answers 404 — the case
the claim describes as "GetBranches returns the absence sentinel" —
`GetBranchByName` does not return absence: the Go field selection
`n.GetBranches().Branches` dereferences the nil result and panics. -/
theorem getBranchByName_absence_sentinel_panics :
    GetBranchByName listNotFoundServer () sampleClient "x"
      = Outcome.panic "runtime error: invalid memory address or nil pointer dereference" ∧
    GetBranchByName listNotFoundServer () sampleClient "x" ≠ Outcome.ok none := by
  have h1 : GetBranchByName listNotFoundServer () sampleClient "x"
      = Outcome.panic "runtime error: invalid memory address or nil pointer dereference" := rfl
  exact ⟨h1, by rw [h1]; exact fun h => Outcome.noConfusion h⟩

/-- C2 (amended): whenever `GetBranches` returns an actual branch list,
`GetBranchByName(name)` is the linear scan of that list for a matching
display name — in particular it returns absence (`none`) when no branch
matches; but when `GetBranches` returns the absence sentinel (`nil`, from a
404 listing response), `GetBranchByName` dereferences it and panics rather
than returning absence. -/
theorem getBranchByName_linear_scan :
    ∀ (σ : Type) (srv : Server σ) (s : σ) (n : Client) (name : String),
      (∀ bs, GetBranches srv s n = Outcome.ok (some bs) →
        GetBranchByName srv s n name
            = Outcome.ok (bs.Branches.find? (fun b => b.Name = name)) ∧
          ((∀ b ∈ bs.Branches, b.Name ≠ name) →
            GetBranchByName srv s n name = Outcome.ok none)) ∧
      (GetBranches srv s n = Outcome.ok none →
        GetBranchByName srv s n name
          = Outcome.panic "runtime error: invalid memory address or nil pointer dereference") := by
  intro σ srv s n name
  constructor
  · intro bs h
    constructor
    · simp [GetBranchByName, h]
    · intro hnone
      have hfind : bs.Branches.find? (fun b => b.Name = name) = none :=
        List.find?_eq_none.mpr (fun b hb => by simp [hnone b hb])
      simp [GetBranchByName, h, hfind]
  · intro h
    simp [GetBranchByName, h]

/-- Witness for C2 (amended): on a one-branch registry the scan for an
absent name returns absence, and on a 404 listing it panics. -/
theorem getBranchByName_linear_scan_witness :
    GetBranchByName neonServer initState sampleClient "x" = Outcome.ok none ∧
    GetBranchByName listNotFoundServer () sampleClientNoCleanup "y"
      = Outcome.panic "runtime error: invalid memory address or nil pointer dereference" :=
  ⟨((getBranchByName_linear_scan RemoteState neonServer initState sampleClient "x").1
      { Branches := [mainBranch], Annotations := [] } rfl).2 (by decide),
   (getBranchByName_linear_scan Unit listNotFoundServer () sampleClientNoCleanup "y").2 rfl⟩

/-- C8: `GetBranch(name)` returns absence (`nil`) exactly when the response
status is 404; with any other status it returns a decoded branch exactly
when the status is 200 (and the body decodes), and otherwise terminates
fatally; `GetBranches` behaves the same way for the listing response.
Neither operation ever panics or returns an error value — the only
non-fatal outcomes are `ok`. -/
theorem getBranch_status_policy :
    ∀ (σ : Type) (srv : Server σ) (s : σ) (n : Client) (name : String),
      (GetBranch srv s n name = Outcome.ok none ↔ (srv.getBranchResp s name).statusCode = 404) ∧
      (∀ b, (srv.getBranchResp s name).statusCode = 200 →
        (srv.getBranchResp s name).body = some b →
        GetBranch srv s n name = Outcome.ok (some b)) ∧
      (∀ b, GetBranch srv s n name = Outcome.ok (some b) →
        (srv.getBranchResp s name).statusCode = 200) ∧
      ((srv.getBranchResp s name).statusCode ≠ 404 → (srv.getBranchResp s name).statusCode ≠ 200 →
        GetBranch srv s n name = Outcome.fatal "unexpected status code") ∧
      (∀ m, GetBranch srv s n name ≠ Outcome.panic m) ∧
      (GetBranches srv s n = Outcome.ok none ↔ (srv.listResp s).statusCode = 404) ∧
      (∀ bs, (srv.listResp s).statusCode = 200 → (srv.listResp s).body = some bs →
        GetBranches srv s n = Outcome.ok (some bs)) ∧
      (∀ bs, GetBranches srv s n = Outcome.ok (some bs) → (srv.listResp s).statusCode = 200) ∧
      ((srv.listResp s).statusCode ≠ 404 → (srv.listResp s).statusCode ≠ 200 →
        GetBranches srv s n = Outcome.fatal "unexpected status code") ∧
      (∀ m, GetBranches srv s n ≠ Outcome.panic m) := by
  intro σ srv s n name
  have hbranch :
      (GetBranch srv s n name = Outcome.ok none ↔ (srv.getBranchResp s name).statusCode = 404) ∧
      (∀ b, (srv.getBranchResp s name).statusCode = 200 →
        (srv.getBranchResp s name).body = some b →
        GetBranch srv s n name = Outcome.ok (some b)) ∧
      (∀ b, GetBranch srv s n name = Outcome.ok (some b) →
        (srv.getBranchResp s name).statusCode = 200) ∧
      ((srv.getBranchResp s name).statusCode ≠ 404 → (srv.getBranchResp s name).statusCode ≠ 200 →
        GetBranch srv s n name = Outcome.fatal "unexpected status code") ∧
      (∀ m, GetBranch srv s n name ≠ Outcome.panic m) := by
    set resp := srv.getBranchResp s name with hresp
    have hgb : GetBranch srv s n name =
        (if resp.statusCode = 404 then Outcome.ok none
         else match validateStatus resp [200] with
         | Outcome.ok _ =>
           match parseResponse resp with
           | Outcome.ok result => Outcome.ok (some result)
           | Outcome.fatal m => Outcome.fatal m
           | Outcome.panic m => Outcome.panic m
         | Outcome.fatal m => Outcome.fatal m
         | Outcome.panic m => Outcome.panic m) := rfl
    by_cases h404 : resp.statusCode = 404
    · rw [hgb, if_pos h404]
      refine ⟨by simp [h404], ?_, ?_, ?_, ?_⟩
      · intro b h200
        omega
      · intro b hb
        simp at hb
      · intro h
        exact absurd h404 h
      · intro m h
        exact Outcome.noConfusion h
    · rw [hgb, if_neg h404]
      by_cases h200 : resp.statusCode = 200
      · have hval : validateStatus resp [200] = Outcome.ok () := by
          simp [validateStatus, h200]
        rw [hval]
        cases hbody : resp.body with
        | none =>
          have hpr : parseResponse resp = Outcome.fatal "error decoding" := by
            simp [parseResponse, hbody]
          rw [hpr]
          refine ⟨by simp [h404], ?_, ?_, ?_, ?_⟩
          · intro b _ hb
            exact Option.noConfusion hb
          · intro b hb
            exact Outcome.noConfusion hb
          · intro _ h
            exact absurd h200 h
          · intro m h
            exact Outcome.noConfusion h
        | some b0 =>
          have hpr : parseResponse resp = Outcome.ok b0 := by
            simp [parseResponse, hbody]
          rw [hpr]
          refine ⟨by simp [h404], ?_, ?_, ?_, ?_⟩
          · intro b _ hb
            injection hb with hb
            rw [hb]
          · intro b _
            exact h200
          · intro _ h
            exact absurd h200 h
          · intro m h
            exact Outcome.noConfusion h
      · have hval : validateStatus resp [200] = Outcome.fatal "unexpected status code" := by
          simp [validateStatus, h200]
        rw [hval]
        refine ⟨by simp [h404], ?_, ?_, ?_, ?_⟩
        · intro b h
          exact absurd h h200
        · intro b hb
          exact Outcome.noConfusion hb
        · intro _ _
          rfl
        · intro m h
          exact Outcome.noConfusion h
  have hlist :
      (GetBranches srv s n = Outcome.ok none ↔ (srv.listResp s).statusCode = 404) ∧
      (∀ bs, (srv.listResp s).statusCode = 200 → (srv.listResp s).body = some bs →
        GetBranches srv s n = Outcome.ok (some bs)) ∧
      (∀ bs, GetBranches srv s n = Outcome.ok (some bs) → (srv.listResp s).statusCode = 200) ∧
      ((srv.listResp s).statusCode ≠ 404 → (srv.listResp s).statusCode ≠ 200 →
        GetBranches srv s n = Outcome.fatal "unexpected status code") ∧
      (∀ m, GetBranches srv s n ≠ Outcome.panic m) := by
    set resp := srv.listResp s with hresp
    have hgb : GetBranches srv s n =
        (if resp.statusCode = 404 then Outcome.ok none
         else match validateStatus resp [200] with
         | Outcome.ok _ =>
           match parseResponse resp with
           | Outcome.ok result => Outcome.ok (some result)
           | Outcome.fatal m => Outcome.fatal m
           | Outcome.panic m => Outcome.panic m
         | Outcome.fatal m => Outcome.fatal m
         | Outcome.panic m => Outcome.panic m) := rfl
    by_cases h404 : resp.statusCode = 404
    · rw [hgb, if_pos h404]
      refine ⟨by simp [h404], ?_, ?_, ?_, ?_⟩
      · intro b h200
        omega
      · intro b hb
        simp at hb
      · intro h
        exact absurd h404 h
      · intro m h
        exact Outcome.noConfusion h
    · rw [hgb, if_neg h404]
      by_cases h200 : resp.statusCode = 200
      · have hval : validateStatus resp [200] = Outcome.ok () := by
          simp [validateStatus, h200]
        rw [hval]
        cases hbody : resp.body with
        | none =>
          have hpr : parseResponse resp = Outcome.fatal "error decoding" := by
            simp [parseResponse, hbody]
          rw [hpr]
          refine ⟨by simp [h404], ?_, ?_, ?_, ?_⟩
          · intro b _ hb
            exact Option.noConfusion hb
          · intro b hb
            exact Outcome.noConfusion hb
          · intro _ h
            exact absurd h200 h
          · intro m h
            exact Outcome.noConfusion h
        | some b0 =>
          have hpr : parseResponse resp = Outcome.ok b0 := by
            simp [parseResponse, hbody]
          rw [hpr]
          refine ⟨by simp [h404], ?_, ?_, ?_, ?_⟩
          · intro b _ hb
            injection hb with hb
            rw [hb]
          · intro b _
            exact h200
          · intro _ h
            exact absurd h200 h
          · intro m h
            exact Outcome.noConfusion h
      · have hval : validateStatus resp [200] = Outcome.fatal "unexpected status code" := by
          simp [validateStatus, h200]
        rw [hval]
        refine ⟨by simp [h404], ?_, ?_, ?_, ?_⟩
        · intro b h
          exact absurd h h200
        · intro b hb
          exact Outcome.noConfusion hb
        · intro _ _
          rfl
        · intro m h
          exact Outcome.noConfusion h
  exact ⟨hbranch.1, hbranch.2.1, hbranch.2.2.1, hbranch.2.2.2.1, hbranch.2.2.2.2,
    hlist.1, hlist.2.1, hlist.2.2.1, hlist.2.2.2.1, hlist.2.2.2.2⟩

/-- Witness for C8: on the concrete registry model, a 200 response with a
decoded body yields the branch. -/
theorem getBranch_status_policy_witness :
    GetBranch neonServer initState sampleClient "main" = Outcome.ok (some mainBranch) :=
  (getBranch_status_policy RemoteState neonServer initState sampleClient "main").2.1
    mainBranch rfl rfl

/-- Step equation for the iteration count of the retry loop. -/
theorem iterCount_step (retry : Nat) (h : retry ≤ 100000000) :
    iterCount retry = iterCount (retry + 10) + 1 := by
  unfold iterCount
  by_cases h2 : retry + 10 ≤ 100000000
  · rw [if_pos h, if_pos h2]
    have hsub : 100000000 - retry = (100000000 - (retry + 10)) + 10 := by omega
    rw [hsub, Nat.add_div_right _ (by norm_num)]
  · rw [if_pos h, if_neg h2]
    have hlt : 100000000 - retry < 10 := by omega
    rw [Nat.div_eq_of_lt hlt]

/-- Behaviour of the creation retry loop when every response is locked:
from a given `retry` value it performs `iterCount retry` attempts, sleeping
`retry, retry + 10, retry + 20, …` nanoseconds, and ends in the
`log.Fatalf` outcome. -/
theorem lockedLoop_all (create : CreateBranch) :
    ∀ fuel retry, 100000001 - retry ≤ fuel →
      createCallsOf (CreateBranchLoop lockedServer create () retry).2.1
          = List.replicate (iterCount retry) (NewCreateBranchRequest create) ∧
      sleepsOf (CreateBranchLoop lockedServer create () retry).2.1
          = (List.range (iterCount retry)).map (fun k => retry + 10 * k) ∧
      (CreateBranchLoop lockedServer create () retry).2.2
          = Outcome.fatal "failed to create branch after elapsed time" := by
  intro fuel
  induction fuel with
  | zero =>
    intro retry h
    have hgt : ¬ retry ≤ 100000000 := by omega
    rw [CreateBranchLoop.eq_def]
    simp [hgt, iterCount, createCallsOf, sleepsOf]
  | succ m ih =>
    intro retry h
    by_cases hle : retry ≤ 100000000
    · obtain ⟨hcalls, hsleeps, hout⟩ := ih (retry + 10) (by omega)
      rcases hrec : CreateBranchLoop lockedServer create () (retry + 10) with ⟨s2, ev2, out2⟩
      rw [hrec] at hcalls hsleeps hout
      simp only at hcalls hsleeps hout
      have hcr : ∀ (s : Unit) req, lockedServer.createResp s req
          = (s, { statusCode := 423, body := none }) := fun _ _ => rfl
      rw [CreateBranchLoop.eq_def]
      simp only [hcr, hle, if_true, hrec]
      refine ⟨?_, ?_, ?_⟩
      · simp only [createCallsOf, List.filterMap_cons]
        simp only [createCallsOf] at hcalls
        rw [hcalls, iterCount_step retry hle]
        rfl
      · simp only [sleepsOf, List.filterMap_cons]
        simp only [sleepsOf] at hsleeps
        rw [hsleeps, iterCount_step retry hle, List.range_succ_eq_map, List.map_cons,
          List.map_map]
        have hcomp : ((fun k => retry + 10 * k) ∘ Nat.succ) = fun k => (retry + 10) + 10 * k := by
          funext k
          simp [Nat.succ_eq_add_one]
          ring
        rw [hcomp]
        simp
      · exact hout
    · rw [CreateBranchLoop.eq_def]
      simp [hle, iterCount, createCallsOf, sleepsOf]

/-- C1 (code bug): on a client whose every creation attempt is answered
with status 423 (locked), `CreateBranch` does terminate fatally — but only
after 9000001 attempts, not 10, and the backoff grows by 10 nanoseconds per
attempt, not 10 milliseconds: the Go increment `retry += 10` adds the
untyped constant 10 to a `time.Duration`, i.e. ten nanoseconds.  The sleep
sequence is 10000000, 10000010, 10000020, … ns and differs from the
10ms/20ms/…/100ms sequence the claim (and spec) describe. -/
theorem createBranch_locked_retry_code_bug :
    (Client.CreateBranch lockedServer () sampleClient "x").2.2
        = Outcome.fatal "failed to create branch after elapsed time" ∧
    createCallsOf (Client.CreateBranch lockedServer () sampleClient "x").2.1
        = List.replicate 9000001 (NewCreateBranchRequest { Name := "x", ParentID := "br-0" }) ∧
    sleepsOf (Client.CreateBranch lockedServer () sampleClient "x").2.1
        = (List.range 9000001).map (fun k => 10000000 + 10 * k) ∧
    (createCallsOf (Client.CreateBranch lockedServer () sampleClient "x").2.1).length ≠ 10 ∧
    sleepsOf (Client.CreateBranch lockedServer () sampleClient "x").2.1
        ≠ (List.range 10).map (fun k => 10000000 + 10000000 * k) := by
  have hred : Client.CreateBranch lockedServer () sampleClient "x"
      = CreateBranchLoop lockedServer { Name := "x", ParentID := "br-0" } () 10000000 := rfl
  obtain ⟨h1, h2, h3⟩ :=
    lockedLoop_all { Name := "x", ParentID := "br-0" } 100000001 10000000 (by omega)
  have hiter : iterCount 10000000 = 9000001 := by norm_num [iterCount]
  rw [hiter] at h1 h2
  rw [hred]
  refine ⟨h3, h1, h2, ?_, ?_⟩
  · rw [h1, List.length_replicate]
    omega
  · rw [h2]
    intro hcontra
    have hlen := congrArg List.length hcontra
    simp at hlen

/-- Every POST request the creation retry loop issues is the one built by
`NewCreateBranchRequest` for the loop's `create` object. -/
theorem loop_createCalls (σ : Type) (srv : Server σ) (create : CreateBranch) :
    ∀ fuel (s : σ) (retry : Nat), 100000001 - retry ≤ fuel →
      ∀ req ∈ createCallsOf (CreateBranchLoop srv create s retry).2.1,
        req = NewCreateBranchRequest create := by
  intro fuel
  induction fuel with
  | zero =>
    intro s retry h
    have hgt : ¬ retry ≤ 100000000 := by omega
    rw [CreateBranchLoop.eq_def]
    simp [hgt, createCallsOf]
  | succ m ih =>
    intro s retry h
    by_cases hle : retry ≤ 100000000
    · rcases hcr : srv.createResp s (NewCreateBranchRequest create) with ⟨s', resp⟩
      rw [CreateBranchLoop.eq_def]
      simp only [hle, if_true, hcr]
      by_cases h423 : resp.statusCode = 423
      · rcases hrec : CreateBranchLoop srv create s' (retry + 10) with ⟨s2, ev2, out2⟩
        have hih := ih s' (retry + 10) (by omega)
        rw [hrec] at hih
        simp only at hih
        simp only [h423, if_true, hrec]
        intro req hreq
        simp only [createCallsOf, List.filterMap_cons] at hreq
        rcases List.mem_cons.mp hreq with heq | hmem
        · exact heq
        · exact hih req hmem
      · simp only [h423, if_false]
        intro req hreq
        simp only [createCallsOf, List.filterMap_cons, List.filterMap_nil] at hreq
        exact List.mem_singleton.mp hreq
    · rw [CreateBranchLoop.eq_def]
      simp [hle, createCallsOf]

/-- C7: `CreateBranch(name)` resolves the parent via `GetBranchByName` on
the configured default-branch name and terminates fatally (returning no
result) when no parent exists; every creation request it submits carries
exactly one read-write compute endpoint and the resolved parent's
identifier; and a non-locked response is accepted only with status 200 or
201 — any other status is fatal. -/
theorem createBranch_parent_and_status :
    ∀ (σ : Type) (srv : Server σ) (s : σ) (n : Client) (name : String),
      (GetBranchByName srv s n n.Branch = Outcome.ok none →
        Client.CreateBranch srv s n name
          = (s, [], Outcome.fatal "error creating branch, parent branch not found")) ∧
      (∀ parent, GetBranchByName srv s n n.Branch = Outcome.ok (some parent) →
        (∀ req ∈ createCallsOf (Client.CreateBranch srv s n name).2.1,
          req.Endpoints = [{ «Type» := "read_write" }] ∧
          req.Branch = { Name := name, ParentID := parent.ID }) ∧
        ((srv.createResp s (NewCreateBranchRequest { Name := name, ParentID := parent.ID })).2.statusCode ≠ 423 →
          (∀ bc,
            ((srv.createResp s (NewCreateBranchRequest { Name := name, ParentID := parent.ID })).2.statusCode = 200 ∨
             (srv.createResp s (NewCreateBranchRequest { Name := name, ParentID := parent.ID })).2.statusCode = 201) →
            (srv.createResp s (NewCreateBranchRequest { Name := name, ParentID := parent.ID })).2.body = some bc →
            (Client.CreateBranch srv s n name).2.2 = Outcome.ok bc) ∧
          ((srv.createResp s (NewCreateBranchRequest { Name := name, ParentID := parent.ID })).2.statusCode ≠ 200 →
           (srv.createResp s (NewCreateBranchRequest { Name := name, ParentID := parent.ID })).2.statusCode ≠ 201 →
            (Client.CreateBranch srv s n name).2.2 = Outcome.fatal "unexpected status code"))) := by
  intro σ srv s n name
  constructor
  · intro h
    simp [Client.CreateBranch, h]
  · intro parent hp
    have hred : Client.CreateBranch srv s n name
        = CreateBranchLoop srv { Name := name, ParentID := parent.ID } s 10000000 := by
      simp [Client.CreateBranch, hp]
    constructor
    · rw [hred]
      intro req hreq
      have hr := loop_createCalls σ srv { Name := name, ParentID := parent.ID }
        100000001 s 10000000 (by omega) req hreq
      rw [hr]
      exact ⟨rfl, rfl⟩
    · rcases hcr : srv.createResp s (NewCreateBranchRequest { Name := name, ParentID := parent.ID })
        with ⟨s', resp⟩
      simp only
      intro h423
      have hloop : Client.CreateBranch srv s n name
          = (s', [Event.createCall (NewCreateBranchRequest { Name := name, ParentID := parent.ID })],
              match validateStatus resp [200, 201] with
              | Outcome.ok _ =>
                match parseResponse resp with
                | Outcome.ok result => Outcome.ok result
                | Outcome.fatal m => Outcome.fatal m
                | Outcome.panic m => Outcome.panic m
              | Outcome.fatal m => Outcome.fatal m
              | Outcome.panic m => Outcome.panic m) := by
        rw [hred, CreateBranchLoop.eq_def]
        have h10 : (10000000 : Nat) ≤ 100000000 := by norm_num
        simp only [h10, if_true, hcr, h423, if_false]
      constructor
    
      · intro bc hstatus hbody
        have hval : validateStatus resp [200, 201] = Outcome.ok () := by
          rcases hstatus with hst | hst <;> simp [validateStatus, hst]
        rw [hloop]
        simp only [hval, parseResponse, hbody]
      · intro h200 h201
        have hval : validateStatus resp [200, 201] = Outcome.fatal "unexpected status code" := by
          simp [validateStatus, h200, h201]
        rw [hloop]
        simp only [hval]

/-- Witness for C7: with no parent branch the call is fatal; on the
concrete registry model a 201 response yields the decoded creation
bundle. -/
theorem createBranch_parent_and_status_witness :
    Client.CreateBranch emptyListServer () sampleClient "x"
      = ((), [], Outcome.fatal "error creating branch, parent branch not found") ∧
    (Client.CreateBranch neonServer initState sampleClient "x").2.2
      = Outcome.ok (mkBranchCreated (mkBranch "br-1" { Name := "x", ParentID := "br-0" })) :=
  ⟨(createBranch_parent_and_status Unit emptyListServer () sampleClient "x").1 rfl,
   ((((createBranch_parent_and_status RemoteState neonServer initState sampleClient "x").2
      mainBranch rfl).2 (by decide)).1
     (mkBranchCreated (mkBranch "br-1" { Name := "x", ParentID := "br-0" }))
     (Or.inr rfl) rfl)⟩

/-- C10: `UsingBranch` reads `created.ConnectionURIs[0]` with no guard:
when `ForcedCreateBranch` returns a result whose `ConnectionURIs` list is
empty the index access is out of bounds (a runtime panic) and the callback
is never invoked, and when the list is non-empty the callback is invoked
with its first element. -/
theorem usingBranch_uri_index_unguarded :
    ∀ (σ : Type) (srv : Server σ) (s : σ) (n : Client) (name : String) (s1 : σ)
      (ev1 : List Event) (created : BranchCreated),
      ForcedCreateBranch srv s n name = (s1, ev1, Outcome.ok created) →
      (created.ConnectionURIs = [] →
        UsingBranch srv s n name
          = (s1, ev1, Outcome.panic "runtime error: index out of range")) ∧
      (∀ uri rest, created.ConnectionURIs = uri :: rest →
        Event.callback uri ∈ (UsingBranch srv s n name).2.1) := by
  intro σ srv s n name s1 ev1 created hf
  constructor
  · intro hnil
    simp [UsingBranch, hf, hnil]
  · intro uri rest huri
    cases hnc : n.NoCleanup with
    | true =>
      simp [UsingBranch, hf, huri, hnc]
    | false =>
      rcases hd : DeleteBranch srv s1 n created.Branch.ID with ⟨s2, ev2, r2⟩
      simp [UsingBranch, hf, huri, hnc, hd]

/-- Witness for C10: a creation result with no connection URIs makes
`UsingBranch` panic. -/
theorem usingBranch_uri_index_unguarded_witness :
    UsingBranch noURIServer () sampleClient "x"
      = ((), [Event.createCall (NewCreateBranchRequest { Name := "x", ParentID := "br-0" })],
          Outcome.panic "runtime error: index out of range") := by
  have hf : ForcedCreateBranch noURIServer () sampleClient "x"
      = ((), [Event.createCall (NewCreateBranchRequest { Name := "x", ParentID := "br-0" })],
          Outcome.ok noURICreated) := by
    show CreateBranchLoop noURIServer { Name := "x", ParentID := "br-0" } () 10000000 = _
    rw [CreateBranchLoop.eq_def]
    simp only [show (10000000 : Nat) ≤ 100000000 by norm_num, if_true]
    rfl
  exact (usingBranch_uri_index_unguarded Unit noURIServer () sampleClient "x" ()
    [Event.createCall (NewCreateBranchRequest { Name := "x", ParentID := "br-0" })]
    noURICreated hf).1 rfl

/-- The creation retry loop never records a callback event. -/
theorem createBranchLoop_no_callbacks (σ : Type) (srv : Server σ) (create : CreateBranch) :
    ∀ fuel (s : σ) (retry : Nat), 100000001 - retry ≤ fuel →
      callbacksOf (CreateBranchLoop srv create s retry).2.1 = [] := by
  intro fuel
  induction fuel with
  | zero =>
    intro s retry h
    have hgt : ¬ retry ≤ 100000000 := by omega
    rw [CreateBranchLoop.eq_def]
    simp [hgt, callbacksOf]
  | succ m ih =>
    intro s retry h
    by_cases hle : retry ≤ 100000000
    · rcases hcr : srv.createResp s (NewCreateBranchRequest create) with ⟨s', resp⟩
      rw [CreateBranchLoop.eq_def]
      simp only [hle, if_true, hcr]
      by_cases h423 : resp.statusCode = 423
      · rcases hrec : CreateBranchLoop srv create s' (retry + 10) with ⟨s2, ev2, out2⟩
        have hih := ih s' (retry + 10) (by omega)
        rw [hrec] at hih
        simp only at hih
        simp only [h423, if_true, hrec]
        simp only [callbacksOf, List.filterMap_cons]
        exact hih
      · simp only [h423, if_false]
        simp [callbacksOf]
    · rw [CreateBranchLoop.eq_def]
      simp [hle, callbacksOf]

/-- `CreateBranch` never records a callback event. -/
theorem clientCreateBranch_no_callbacks (σ : Type) (srv : Server σ) (s : σ) (n : Client)
    (name : String) : callbacksOf (Client.CreateBranch srv s n name).2.1 = [] := by
  unfold Client.CreateBranch
  rcases hg : GetBranchByName srv s n n.Branch with r | m | m
  · cases r with
    | none => simp [callbacksOf]
    | some parent =>
      exact createBranchLoop_no_callbacks σ srv { Name := name, ParentID := parent.ID }
        100000001 s 10000000 (by omega)
  · simp [callbacksOf]
  · simp [callbacksOf]

/-- `ForcedCreateBranch` never records a callback event: only `UsingBranch` invokes the caller-supplied callback. -/
theorem forcedCreateBranch_no_callbacks (σ : Type) (srv : Server σ) (s : σ) (n : Client)
    (name : String) : callbacksOf (ForcedCreateBranch srv s n name).2.1 = [] := by
  unfold ForcedCreateBranch
  rcases hg : GetBranch srv s n name with r | m | m
  · cases r with
    | none => exact clientCreateBranch_no_callbacks σ srv s n name
    | some b =>
      rcases hdel : srv.deleteResp s name with ⟨s1, resp⟩
      have hD : DeleteBranch srv s n name
          = (s1, [Event.deleteCall name], validateStatus resp [200]) := by
        simp [DeleteBranch, hdel]
      rw [hD]
      rcases hval : validateStatus resp [200] with u | m | m
      · rcases hc : Client.CreateBranch srv s1 n name with ⟨s2, ev2, r2⟩
        have hcb := clientCreateBranch_no_callbacks σ srv s1 n name
        rw [hc] at hcb
        simp only at hcb
        simp only [hc]
        simp [callbacksOf, List.filterMap_append] at hcb ⊢
        exact hcb
      · simp [callbacksOf]
      · simp [callbacksOf]
  · simp [callbacksOf]
  · simp [callbacksOf]

/-- C4: when cleanup is not suppressed and `ForcedCreateBranch` yields a
creation result with at least one connection URI, `UsingBranch` invokes the
callback exactly once, with the first connection URI, and then deletes the
branch by the created branch identifier — the trace is the creation
events, then the single callback, then the single DELETE of
`created.Branch.ID`, in that order. -/
theorem usingBranch_callback_then_cleanup :
    ∀ (σ : Type) (srv : Server σ) (s : σ) (n : Client) (name : String) (s1 : σ)
      (ev1 : List Event) (created : BranchCreated) (uri : ConnectionURI)
      (rest : List ConnectionURI),
      ForcedCreateBranch srv s n name = (s1, ev1, Outcome.ok created) →
      created.ConnectionURIs = uri :: rest →
      n.NoCleanup = false →
      (UsingBranch srv s n name).2.1
          = ev1 ++ [Event.callback uri, Event.deleteCall created.Branch.ID] ∧
      callbacksOf (UsingBranch srv s n name).2.1 = [uri] ∧
      callbacksOf ev1 = [] := by
  intro σ srv s n name s1 ev1 created uri rest hf huri hnc
  have hev1 : callbacksOf ev1 = [] := by
    have h := forcedCreateBranch_no_callbacks σ srv s n name
    rw [hf] at h
    exact h
  rcases hdel : srv.deleteResp s1 created.Branch.ID with ⟨s2, resp⟩
  have hD : DeleteBranch srv s1 n created.Branch.ID
      = (s2, [Event.deleteCall created.Branch.ID], validateStatus resp [200]) := by
    simp [DeleteBranch, hdel]
  have htrace : (UsingBranch srv s n name).2.1
      = ev1 ++ [Event.callback uri, Event.deleteCall created.Branch.ID] := by
    simp [UsingBranch, hf, huri, hnc, hD]
  refine ⟨htrace, ?_, hev1⟩
  rw [htrace]
  simp [callbacksOf, List.filterMap_append] at hev1 ⊢
  exact hev1

/-- C5: with the cleanup-suppression flag set, `UsingBranch` issues no
DELETE after the callback returns: the trace ends at the callback event,
and the final remote state is exactly the state `ForcedCreateBranch` left
behind — the post-callback phase changes nothing. -/
theorem usingBranch_noCleanup_persists :
    ∀ (σ : Type) (srv : Server σ) (s : σ) (n : Client) (name : String) (s1 : σ)
      (ev1 : List Event) (created : BranchCreated) (uri : ConnectionURI)
      (rest : List ConnectionURI),
      ForcedCreateBranch srv s n name = (s1, ev1, Outcome.ok created) →
      created.ConnectionURIs = uri :: rest →
      n.NoCleanup = true →
      UsingBranch srv s n name = (s1, ev1 ++ [Event.callback uri], Outcome.ok ()) ∧
      (UsingBranch srv s n name).1 = s1 ∧
      deleteCallsOf ((UsingBranch srv s n name).2.1.drop ev1.length) = [] := by
  intro σ srv s n name s1 ev1 created uri rest hf huri hnc
  have h : UsingBranch srv s n name = (s1, ev1 ++ [Event.callback uri], Outcome.ok ()) := by
    simp [UsingBranch, hf, huri, hnc]
  refine ⟨h, by rw [h], ?_⟩
  rw [h]
  simp only [List.drop_left]
  simp [deleteCallsOf]

/-- Witness for C4 on the concrete registry model. -/
theorem usingBranch_callback_then_cleanup_witness :
    (UsingBranch neonServer initState sampleClient "x").2.1
      = [Event.createCall (NewCreateBranchRequest { Name := "x", ParentID := "br-0" })]
        ++ [Event.callback sampleURI, Event.deleteCall "br-1"] := by
  have hf : ForcedCreateBranch neonServer initState sampleClient "x"
      = (sampleStateAfterCreate,
         [Event.createCall (NewCreateBranchRequest { Name := "x", ParentID := "br-0" })],
         Outcome.ok sampleCreated) := by
    show CreateBranchLoop neonServer { Name := "x", ParentID := "br-0" } initState 10000000 = _
    rw [CreateBranchLoop.eq_def]
    simp only [show (10000000 : Nat) ≤ 100000000 by norm_num, if_true]
    rfl
  exact (usingBranch_callback_then_cleanup RemoteState neonServer initState sampleClient "x" sampleStateAfterCreate
    [Event.createCall (NewCreateBranchRequest { Name := "x", ParentID := "br-0" })]
    sampleCreated sampleURI [] hf rfl rfl).1

/-- Witness for C5 on the concrete registry model. -/
theorem usingBranch_noCleanup_persists_witness :
    (UsingBranch neonServer initState sampleClientNoCleanup "x").1 = sampleStateAfterCreate := by
  have hf : ForcedCreateBranch neonServer initState sampleClientNoCleanup "x"
      = (sampleStateAfterCreate,
         [Event.createCall (NewCreateBranchRequest { Name := "x", ParentID := "br-0" })],
         Outcome.ok sampleCreated) := by
    show CreateBranchLoop neonServer { Name := "x", ParentID := "br-0" } initState 10000000 = _
    rw [CreateBranchLoop.eq_def]
    simp only [show (10000000 : Nat) ≤ 100000000 by norm_num, if_true]
    rfl
  exact (usingBranch_noCleanup_persists RemoteState neonServer initState sampleClientNoCleanup "x" sampleStateAfterCreate
    [Event.createCall (NewCreateBranchRequest { Name := "x", ParentID := "br-0" })]
    sampleCreated sampleURI [] hf rfl rfl).2.1

/-- Applying one package-level action only ever appends to the record of
constructed clients. -/
theorem applyOp_clients_extend (w : World) (op : WorldOp) :
    ∃ tail, (applyOp w op).clients = w.clients ++ tail := by
  cases op with
  | setDefaultBranch b => exact ⟨[], by simp [applyOp, SetDefaultBranch]⟩
  | loadClient env =>
    rcases hl : LoadClient env w.defaultBranch with c | m | m
    · exact ⟨[c], by simp [applyOp, loadClientW, hl]⟩
    · exact ⟨[], by simp [applyOp, loadClientW, hl]⟩
    · exact ⟨[], by simp [applyOp, loadClientW, hl]⟩

/-- C9: `LoadClient` snapshots the package-level default branch name (and
the two environment credentials) into the client at construction, with
`NoCleanup` false; and no later `SetDefaultBranch` or `LoadClient` action
changes any already-constructed client — the record of constructed clients
only grows, every earlier entry unchanged.  Branch operations take the
client by value (`func (n Client)`) and are embedded as pure functions of
it, so they cannot write to it at all. -/
theorem loadClient_config_immutable :
    (∀ (env : String → String) (w : World) (c : Client),
      (loadClientW env w).2 = Outcome.ok c →
      c.Branch = w.defaultBranch ∧ c.Key = env "NEON_API_KEY" ∧
      c.ProjectID = env "NEON_PROJECT_ID" ∧ c.NoCleanup = false) ∧
    (∀ (w : World) (ops : List WorldOp),
      ∃ tail, (applyOps w ops).clients = w.clients ++ tail) ∧
    (∀ (w : World) (ops : List WorldOp) (i : Nat), i < w.clients.length →
      (applyOps w ops).clients[i]? = w.clients[i]?) := by
  have hext : ∀ (ops : List WorldOp) (w : World),
      ∃ tail, (applyOps w ops).clients = w.clients ++ tail := by
    intro ops
    induction ops with
    | nil => exact fun w => ⟨[], by simp [applyOps]⟩
    | cons op ops ih =>
      intro w
      obtain ⟨t1, ht1⟩ := applyOp_clients_extend w op
      obtain ⟨t2, ht2⟩ := ih (applyOp w op)
      refine ⟨t1 ++ t2, ?_⟩
      have : applyOps w (op :: ops) = applyOps (applyOp w op) ops := rfl
      rw [this, ht2, ht1, List.append_assoc]
  refine ⟨?_, fun w ops => hext ops w, ?_⟩
  · intro env w c h
    by_cases hk : env "NEON_API_KEY" = ""
    · simp [loadClientW, LoadClient, require, hk] at h
    · by_cases hp : env "NEON_PROJECT_ID" = ""
      · simp [loadClientW, LoadClient, require, hk, hp] at h
      · simp [loadClientW, LoadClient, require, hk, hp] at h
        subst h
        exact ⟨rfl, rfl, rfl, rfl⟩
  · intro w ops i hi
    obtain ⟨tail, ht⟩ := hext ops w
    rw [ht, List.getElem?_append, if_pos hi]

/-- Witness for C9 at a concrete environment and world. -/
theorem loadClient_config_immutable_witness :
    sampleClient.Branch = sampleWorld.defaultBranch ∧ sampleClient.NoCleanup = false :=
  ⟨(loadClient_config_immutable.1 sampleEnv sampleWorld sampleClient rfl).1,
   (loadClient_config_immutable.1 sampleEnv sampleWorld sampleClient rfl).2.2.2⟩

/-- The creation retry loop never records a DELETE event. -/
theorem createBranchLoop_no_deleteCalls (σ : Type) (srv : Server σ) (create : CreateBranch) :
    ∀ fuel (s : σ) (retry : Nat), 100000001 - retry ≤ fuel →
      deleteCallsOf (CreateBranchLoop srv create s retry).2.1 = [] := by
  intro fuel
  induction fuel with
  | zero =>
    intro s retry h
    have hgt : ¬ retry ≤ 100000000 := by omega
    rw [CreateBranchLoop.eq_def]
    simp [hgt, deleteCallsOf]
  | succ m ih =>
    intro s retry h
    by_cases hle : retry ≤ 100000000
    · rcases hcr : srv.createResp s (NewCreateBranchRequest create) with ⟨s', resp⟩
      rw [CreateBranchLoop.eq_def]
      simp only [hle, if_true, hcr]
      by_cases h423 : resp.statusCode = 423
      · rcases hrec : CreateBranchLoop srv create s' (retry + 10) with ⟨s2, ev2, out2⟩
        have hih := ih s' (retry + 10) (by omega)
        rw [hrec] at hih
        simp only at hih
        simp only [h423, if_true, hrec]
        simp only [deleteCallsOf, List.filterMap_cons]
        exact hih
      · simp only [h423, if_false]
        simp [deleteCallsOf]
    · rw [CreateBranchLoop.eq_def]
      simp [hle, deleteCallsOf]

/-- `CreateBranch` never issues a DELETE. -/
theorem clientCreateBranch_no_deleteCalls (σ : Type) (srv : Server σ) (s : σ) (n : Client)
    (name : String) : deleteCallsOf (Client.CreateBranch srv s n name).2.1 = [] := by
  unfold Client.CreateBranch
  rcases hg : GetBranchByName srv s n n.Branch with r | m | m
  · cases r with
    | none => simp [deleteCallsOf]
    | some parent =>
      exact createBranchLoop_no_deleteCalls σ srv { Name := name, ParentID := parent.ID }
        100000001 s 10000000 (by omega)
  · simp [deleteCallsOf]
  · simp [deleteCallsOf]

/-- On the concrete registry model, `GetBranch` returns exactly the
result of the registry lookup. -/
theorem neon_GetBranch (s : RemoteState) (n : Client) (key : String) :
    GetBranch neonServer s n key = Outcome.ok (s.find key) := by
  cases hf : s.find key with
  | none => simp [GetBranch, neonServer, hf]
  | some b => simp [GetBranch, neonServer, hf, validateStatus, parseResponse]

/-- On the concrete registry model, `GetBranchByName` is the linear scan
of the branch list. -/
theorem neon_GetBranchByName (s : RemoteState) (n : Client) (bname : String) :
    GetBranchByName neonServer s n bname
      = Outcome.ok (s.branches.find? (fun b => b.Name = bname)) := by
  have hgs : GetBranches neonServer s n
      = Outcome.ok (some { Branches := s.branches, Annotations := [] }) := by
    simp [GetBranches, neonServer, validateStatus, parseResponse]
  simp [GetBranchByName, hgs]

/-- On the concrete registry model, deleting an existing branch removes
every branch with the matched identifier and succeeds with one DELETE
event. -/
theorem neon_DeleteBranch_found (s : RemoteState) (n : Client) (key : String) (b : Branch)
    (hf : s.find key = some b) :
    DeleteBranch neonServer s n key
      = ({ s with branches := s.branches.filter (fun b' => !(b'.ID = b.ID)) },
         [Event.deleteCall key], Outcome.ok ()) := by
  simp [DeleteBranch, neonServer, hf, validateStatus]

/-- On the concrete registry model, when the parent resolves and the name
is free, `CreateBranch` succeeds on its first attempt: the registry gains
the freshly minted branch and the call returns its creation bundle. -/
theorem neon_CreateBranch_ok (s : RemoteState) (n : Client) (name : String) (parent : Branch)
    (hp : s.branches.find? (fun b => b.Name = n.Branch) = some parent)
    (hfree : s.branches.any (fun b => b.Name = name) = false) :
    Client.CreateBranch neonServer s n name
      = ({ branches := s.branches
            ++ [mkBranch (freshId s.nextId) { Name := name, ParentID := parent.ID }],
           nextId := s.nextId + 1 },
         [Event.createCall (NewCreateBranchRequest { Name := name, ParentID := parent.ID })],
         Outcome.ok (mkBranchCreated
           (mkBranch (freshId s.nextId) { Name := name, ParentID := parent.ID }))) := by
  have hbn := neon_GetBranchByName s n n.Branch
  rw [hp] at hbn
  simp only [Client.CreateBranch, hbn]
  rw [CreateBranchLoop.eq_def]
  have hcr : neonServer.createResp s
      (NewCreateBranchRequest { Name := name, ParentID := parent.ID })
      = ({ branches := s.branches
            ++ [mkBranch (freshId s.nextId) { Name := name, ParentID := parent.ID }],
           nextId := s.nextId + 1 },
         { statusCode := 201,
           body := some (mkBranchCreated
             (mkBranch (freshId s.nextId) { Name := name, ParentID := parent.ID })) }) := by
    have hnot : ∀ x ∈ s.branches, ¬ x.Name = name := by
      intro x hx
      simpa using List.any_eq_false.mp hfree x hx
    simp only [neonServer, NewCreateBranchRequest, hfree]
    simp
  simp only [show (10000000 : Nat) ≤ 100000000 by norm_num, if_true, hcr]
  simp [validateStatus, parseResponse]

/-- When `GetBranch(name)` returns absence, `ForcedCreateBranch` is
exactly `CreateBranch` — no DELETE is issued. -/
theorem forced_structure_none (σ : Type) (srv : Server σ) (s : σ) (n : Client) (name : String)
    (hg : GetBranch srv s n name = Outcome.ok none) :
    ForcedCreateBranch srv s n name = Client.CreateBranch srv s n name := by
  unfold ForcedCreateBranch
  rw [hg]

/-- When `GetBranch(name)` returns a branch, `ForcedCreateBranch` first
issues exactly one DELETE for `name` and the rest of its trace contains no
DELETE. -/
theorem forced_structure_some (σ : Type) (srv : Server σ) (s : σ) (n : Client) (name : String)
    (b : Branch) (hg : GetBranch srv s n name = Outcome.ok (some b)) :
    ∃ ev', (ForcedCreateBranch srv s n name).2.1 = Event.deleteCall name :: ev' ∧
      deleteCallsOf ev' = [] := by
  unfold ForcedCreateBranch
  rw [hg]
  rcases hdel : srv.deleteResp s name with ⟨s1, resp⟩
  have hD : DeleteBranch srv s n name
      = (s1, [Event.deleteCall name], validateStatus resp [200]) := by
    simp [DeleteBranch, hdel]
  rw [hD]
  rcases hv : validateStatus resp [200] with u | m | m
  · rcases hc : Client.CreateBranch srv s1 n name with ⟨s2, ev2, r2⟩
    refine ⟨ev2, by simp [hc], ?_⟩
    have hnd := clientCreateBranch_no_deleteCalls σ srv s1 n name
    rw [hc] at hnd
    simpa using hnd
  · exact ⟨[], by simp, by simp [deleteCallsOf]⟩
  · exact ⟨[], by simp, by simp [deleteCallsOf]⟩

/-- `ForcedCreateBranch` on the concrete registry model with no stale
branch: straight to a successful creation. -/
theorem neon_forced_ok_nostale (S : RemoteState) (n : Client) (name : String) (parent : Branch)
    (hg : S.find name = none)
    (hp : S.branches.find? (fun b => b.Name = n.Branch) = some parent)
    (hfree : S.branches.any (fun b => b.Name = name) = false) :
    ForcedCreateBranch neonServer S n name
      = ({ branches := S.branches
            ++ [mkBranch (freshId S.nextId) { Name := name, ParentID := parent.ID }],
           nextId := S.nextId + 1 },
         [Event.createCall (NewCreateBranchRequest { Name := name, ParentID := parent.ID })],
         Outcome.ok (mkBranchCreated
           (mkBranch (freshId S.nextId) { Name := name, ParentID := parent.ID }))) := by
  have h1 := forced_structure_none RemoteState neonServer S n name (by rw [neon_GetBranch, hg])
  rw [h1, neon_CreateBranch_ok S n name parent hp hfree]

/-- `ForcedCreateBranch` on the concrete registry model with a stale
branch present: delete it, then create successfully. -/
theorem neon_forced_ok_stale (S : RemoteState) (n : Client) (name : String)
    (stale parent : Branch)
    (hg : S.find name = some stale)
    (hp : (S.branches.filter (fun b' => !(b'.ID = stale.ID))).find?
        (fun b => b.Name = n.Branch) = some parent)
    (hfree : (S.branches.filter (fun b' => !(b'.ID = stale.ID))).any
        (fun b => b.Name = name) = false) :
    ForcedCreateBranch neonServer S n name
      = ({ branches := S.branches.filter (fun b' => !(b'.ID = stale.ID))
            ++ [mkBranch (freshId S.nextId) { Name := name, ParentID := parent.ID }],
           nextId := S.nextId + 1 },
         [Event.deleteCall name,
          Event.createCall (NewCreateBranchRequest { Name := name, ParentID := parent.ID })],
         Outcome.ok (mkBranchCreated
           (mkBranch (freshId S.nextId) { Name := name, ParentID := parent.ID }))) := by
  unfold ForcedCreateBranch
  rw [neon_GetBranch, hg]
  rw [neon_DeleteBranch_found S n name stale hg]
  have hcb := neon_CreateBranch_ok
    { S with branches := S.branches.filter (fun b' => !(b'.ID = stale.ID)) } n name parent hp hfree
  simp [hcb]

/-- C3: `ForcedCreateBranch(name)` queries `GetBranch(name)`, issues a
DELETE exactly when that query returns a branch, and then runs
`CreateBranch(name)`; consequently, on the registry model (names unique
within the project), two successive `ForcedCreateBranch` calls with the
same name both succeed — the second call finds the first call's branch,
deletes it, and recreates it, never failing because the name already
exists. -/
theorem forcedCreateBranch_idempotent :
    (∀ (σ : Type) (srv : Server σ) (s : σ) (n : Client) (name : String),
      (GetBranch srv s n name = Outcome.ok none →
        ForcedCreateBranch srv s n name = Client.CreateBranch srv s n name ∧
        deleteCallsOf (ForcedCreateBranch srv s n name).2.1 = []) ∧
      (∀ b, GetBranch srv s n name = Outcome.ok (some b) →
        ∃ ev', (ForcedCreateBranch srv s n name).2.1 = Event.deleteCall name :: ev' ∧
          deleteCallsOf ev' = [])) ∧
    (∀ (s : RemoteState) (n : Client) (name : String),
      (∀ b ∈ s.branches, ∀ b' ∈ s.branches, b.ID = b'.ID → b = b') →
      (∀ b ∈ s.branches, ∀ b' ∈ s.branches, b.Name = b'.Name → b = b') →
      (∃ p ∈ s.branches, p.Name = n.Branch) →
      name ≠ n.Branch →
      (∀ b ∈ s.branches, ¬ b.ID = name) →
      (∀ b ∈ s.branches, ¬ b.ID = freshId s.nextId) →
      ¬ freshId s.nextId = name →
      ∃ s1 ev1 created1 s2 ev2 created2,
        ForcedCreateBranch neonServer s n name = (s1, ev1, Outcome.ok created1) ∧
        created1.Branch.Name = name ∧
        ForcedCreateBranch neonServer s1 n name = (s2, ev2, Outcome.ok created2) ∧
        deleteCallsOf ev2 = [name] ∧
        created2.Branch.Name = name) := by
  constructor
  · intro σ srv s n name
    constructor
    · intro hg
      have h1 := forced_structure_none σ srv s n name hg
      refine ⟨h1, ?_⟩
      rw [h1]
      exact clientCreateBranch_no_deleteCalls σ srv s n name
    · intro b hg
      exact forced_structure_some σ srv s n name b hg
  · intro s n name hids hnames hparent hne hid hf1 hfname
    obtain ⟨p0, hp0mem, hp0name⟩ := hparent
    have hcommon : ∀ (base : List Branch) (parent1 : Branch),
        (∀ b ∈ base, b ∈ s.branches) →
        (∀ b ∈ base, ¬ b.Name = name) →
        base.find? (fun b => b.Name = n.Branch) = some parent1 →
        ∃ s2 ev2 created2,
          ForcedCreateBranch neonServer
              { branches := base
                  ++ [mkBranch (freshId s.nextId) { Name := name, ParentID := parent1.ID }],
                nextId := s.nextId + 1 } n name
            = (s2, ev2, Outcome.ok created2) ∧
          deleteCallsOf ev2 = [name] ∧ created2.Branch.Name = name := by
      intro base parent1 hsub hbname hfind1
      set b1 : Branch := mkBranch (freshId s.nextId) { Name := name, ParentID := parent1.ID }
        with hb1def
      set S1 : RemoteState := { branches := base ++ [b1], nextId := s.nextId + 1 } with hS1def
      have hbranches : S1.branches = base ++ [b1] := rfl
      have hfindbase : base.find? (fun b => b.ID = name || b.Name = name) = none := by
        apply List.find?_eq_none.mpr
        intro b hb
        simp [hid b (hsub b hb), hbname b hb]
      have hb1name : b1.Name = name := by simp [hb1def, mkBranch]
      have hb1id : b1.ID = freshId s.nextId := by simp [hb1def, mkBranch]
      have hfind : S1.find name = some b1 := by
        unfold RemoteState.find
        rw [hbranches, List.find?_append, hfindbase, Option.none_or]
        exact List.find?_cons_of_pos _ (by simp [hb1name])
      have hfilterS : S1.branches.filter (fun b' => !(b'.ID = b1.ID)) = base := by
        rw [hbranches, List.filter_append]
        have h1 : base.filter (fun b' => !(b'.ID = b1.ID)) = base := by
          apply List.filter_eq_self.mpr
          intro b hb
          simp [hb1id, hf1 b (hsub b hb)]
        have h2 : [b1].filter (fun b' => !(b'.ID = b1.ID)) = [] := by simp
        rw [h1, h2, List.append_nil]
      have hp2 : (S1.branches.filter (fun b' => !(b'.ID = b1.ID))).find?
          (fun b => b.Name = n.Branch) = some parent1 := by
        rw [hfilterS]
        exact hfind1
      have hfree2 : (S1.branches.filter (fun b' => !(b'.ID = b1.ID))).any
          (fun b => b.Name = name) = false := by
        rw [hfilterS]
        apply List.any_eq_false.mpr
        intro b hb
        simp [hbname b hb]
      have h2 := neon_forced_ok_stale S1 n name b1 parent1 hfind hp2 hfree2
      refine ⟨_, _, _, h2, by simp [deleteCallsOf], by simp [mkBranchCreated, mkBranch]⟩
    cases hstale : s.find name with
    | none =>
      have hnone : ∀ b ∈ s.branches, ¬ b.Name = name := by
        intro b hb
        have h := List.find?_eq_none.mp hstale b hb
        simp at h
        exact h.2
      have hfree : s.branches.any (fun b => b.Name = name) = false := by
        apply List.any_eq_false.mpr
        intro b hb
        simp [hnone b hb]
      have hps : (s.branches.find? (fun b => b.Name = n.Branch)).isSome = true :=
        List.find?_isSome.mpr ⟨p0, hp0mem, by simp [hp0name]⟩
      obtain ⟨parent1, hfind1⟩ := Option.isSome_iff_exists.mp hps
      have h1 := neon_forced_ok_nostale s n name parent1 hstale hfind1 hfree
      obtain ⟨s2, ev2, created2, h2, hdel2, hname2⟩ :=
        hcommon s.branches parent1 (fun b hb => hb) hnone hfind1
      exact ⟨_, _, _, s2, ev2, created2, h1, by simp [mkBranchCreated, mkBranch], h2, hdel2,
        hname2⟩
    | some stale =>
      have hsmem : stale ∈ s.branches := List.mem_of_find?_eq_some hstale
      have hspred := List.find?_some hstale
      have hsname : stale.Name = name := by
        have hnid := hid stale hsmem
        simp at hspred
        rcases hspred with h | h
        · exact absurd h hnid
        · exact h
      have hbase_sub : ∀ b ∈ s.branches.filter (fun b' => !(b'.ID = stale.ID)),
          b ∈ s.branches := fun b hb => (List.mem_filter.mp hb).1
      have hbase_id : ∀ b ∈ s.branches.filter (fun b' => !(b'.ID = stale.ID)),
          ¬ b.ID = stale.ID := by
        intro b hb
        have h := (List.mem_filter.mp hb).2
        simpa using h
      have hbase_name : ∀ b ∈ s.branches.filter (fun b' => !(b'.ID = stale.ID)),
          ¬ b.Name = name := by
        intro b hb hbn
        have hbmem := hbase_sub b hb
        have heq : b = stale := hnames b hbmem stale hsmem (by rw [hbn, hsname])
        exact hbase_id b hb (by rw [heq])
      have hp0ne : ¬ p0.ID = stale.ID := by
        intro h
        have heq : p0 = stale := hids p0 hp0mem stale hsmem h
        rw [heq] at hp0name
        exact hne (by rw [← hp0name, hsname])
      have hp0base : p0 ∈ s.branches.filter (fun b' => !(b'.ID = stale.ID)) :=
        List.mem_filter.mpr ⟨hp0mem, by simp [hp0ne]⟩
      have hps : ((s.branches.filter (fun b' => !(b'.ID = stale.ID))).find?
          (fun b => b.Name = n.Branch)).isSome = true :=
        List.find?_isSome.mpr ⟨p0, hp0base, by simp [hp0name]⟩
      obtain ⟨parent1, hfind1⟩ := Option.isSome_iff_exists.mp hps
      have hfree : (s.branches.filter (fun b' => !(b'.ID = stale.ID))).any
          (fun b => b.Name = name) = false := by
        apply List.any_eq_false.mpr
        intro b hb
        simp [hbase_name b hb]
      have h1 := neon_forced_ok_stale s n name stale parent1 hstale hfind1 hfree
      obtain ⟨s2, ev2, created2, h2, hdel2, hname2⟩ :=
        hcommon (s.branches.filter (fun b' => !(b'.ID = stale.ID))) parent1
          hbase_sub hbase_name hfind1
      exact ⟨_, _, _, s2, ev2, created2, h1, by simp [mkBranchCreated, mkBranch], h2, hdel2,
        hname2⟩

/-- Witness for C3: two successive forced creations of branch "x" on the
one-branch registry both succeed. -/
theorem forcedCreateBranch_idempotent_witness :
    ∃ s1 ev1 created1 s2 ev2 created2,
      ForcedCreateBranch neonServer initState sampleClient "x" = (s1, ev1, Outcome.ok created1) ∧
      created1.Branch.Name = "x" ∧
      ForcedCreateBranch neonServer s1 sampleClient "x" = (s2, ev2, Outcome.ok created2) ∧
      deleteCallsOf ev2 = ["x"] ∧
      created2.Branch.Name = "x" :=
  forcedCreateBranch_idempotent.2 initState sampleClient "x" (by decide) (by decide) (by decide) (by decide)
    (by decide) (by decide) (by decide)
